import Mathlib

/-!
# Optional<T> (optional.h): lifetime management of a value in raw storage

A shallow embedding of `src/optional.h`.

* The contained type `T` is a template parameter.  Its special member functions
  (copy/move constructor, copy/move assignment, the constructor reached through
  `Emplace`) are taken as a record `TOps`; each of them may throw.
* `data_` is raw storage.  The embedding records which object, if any, is alive
  in it (`Storage.obj`) and the history of lifetime events on it (`Storage.log`).
* A member function that can throw returns its result as `Except Error _`
  together with the state of the objects it may have modified: in C++ the
  modifications made before a `throw` stay.
-/

namespace Opt

/-- The ways a call can end abnormally. -/
inductive Error where
  /-- `throw BadOptionalAccess()` (optional.h:187, optional.h:195). -/
  | BadOptionalAccess
  /-- An exception thrown by a constructor or an assignment operator of `T`. -/
  | TException
  /-- Use as a `T` of storage that holds no live object (undefined behaviour). -/
  | DeadStorage
deriving DecidableEq, Repr

/-- `BadOptionalAccess::what()` (optional.h:9-11). -/
def BadOptionalAccess.what : String := "Bad optional access"

/-- The operations of the contained type `T` that `Optional<T>` invokes.
`Args` stands for the argument packs accepted by `Emplace`. -/
structure TOps (T Args : Type) where
  /-- `T(const T&)`: the new object, or `none` when the constructor throws. -/
  copyCtor : T → Option T
  /-- `T(T&&)`: on success the new object and the moved-from source; on a throw
  the state the source is left in. -/
  moveCtor : T → Except T (T × T)
  /-- `T(args...)`: the new object, or `none` when the constructor throws. -/
  argsCtor : Args → Option T
  /-- `dst = src` (copy): on success the new value of `dst`; on a throw the
  value `dst` is left with. -/
  copyAssign : T → T → Except T T
  /-- `dst = std::move(src)`: on success the new values of `dst` and `src`; on a
  throw the values both are left with. -/
  moveAssign : T → T → Except (T × T) (T × T)

/-- Lifetime events on a block of raw storage. -/
inductive Event (T : Type) where
  /-- A `T` with this value was constructed in the storage (placement new). -/
  | construct (v : T)
  /-- The destructor ran on the object in the storage, which had this value. -/
  | destroy (v : T)
  /-- The live object was assigned to: old value, new value. -/
  | assign (old new : T)
deriving DecidableEq, Repr

/-- `alignas(T) char data_[sizeof(T)]`: raw storage, together with the object
currently alive in it and the events that happened on it. -/
structure Storage (T : Type) where
  obj : Option T
  log : List (Event T)
deriving DecidableEq, Repr

namespace Storage

variable {T : Type}

/-- Storage of a newly created `Optional`: no object, no history. -/
def fresh : Storage T := ⟨none, []⟩

/-- Effect of `new (data_) T(...)` once the constructor has produced `v`. -/
def construct (s : Storage T) (v : T) : Storage T :=
  ⟨some v, s.log ++ [Event.construct v]⟩

/-- Effect of `.~T()` on the live object `v`. -/
def destroy (s : Storage T) (v : T) : Storage T :=
  ⟨none, s.log ++ [Event.destroy v]⟩

/-- Effect of a completed assignment to the live object. -/
def assign (s : Storage T) (old new : T) : Storage T :=
  ⟨some new, s.log ++ [Event.assign old new]⟩

/-- The live object changes value without a lifetime event (it was moved from,
or an assignment to it threw part-way). -/
def mutate (s : Storage T) (v : T) : Storage T :=
  ⟨some v, s.log⟩

/-- Number of constructions performed in the storage. -/
def constructions (s : Storage T) : Nat :=
  (s.log.filter fun e => match e with | Event.construct _ => true | _ => false).length

/-- Number of destructions performed in the storage. -/
def destructions (s : Storage T) : Nat :=
  (s.log.filter fun e => match e with | Event.destroy _ => true | _ => false).length

/-- Number of assignments performed on objects in the storage. -/
def assignments (s : Storage T) : Nat :=
  (s.log.filter fun e => match e with | Event.assign _ _ => true | _ => false).length

end Storage

/-- Replays a history of events from a storage that is live or not: `none` when
some event is a construction over a live object, or a destruction of or an
assignment to storage without one; otherwise whether an object is alive at the
end. -/
def lifecycle {T : Type} : Bool → List (Event T) → Option Bool
  | live, [] => some live
  | live, Event.construct _ :: es => if live then none else lifecycle true es
  | live, Event.destroy _ :: es => if live then lifecycle false es else none
  | live, Event.assign _ _ :: es => if live then lifecycle true es else none

/-- The data members of `class Optional` (optional.h:48-51). -/
structure Optional (T : Type) where
  data_ : Storage T
  is_initialized_ : Bool
deriving DecidableEq, Repr

variable {T Args : Type}

/-- `Optional() = default` with `bool is_initialized_ = false` (optional.h:17, 51). -/
def Optional.default : Optional T := ⟨Storage.fresh, false⟩

/-- `T& Optional<T>::Value()` (optional.h:184-190).  The returned reference is
used at once by every caller, so the model returns the object it refers to;
`*reinterpret_cast<T*>(data_)` on storage without a live object is
`Error.DeadStorage`. -/
def Value (o : Optional T) : Except Error T × Optional T :=
  if !o.is_initialized_ then
    (.error .BadOptionalAccess, o)
  else
    match o.data_.obj with
    | some v => (.ok v, o)
    | none => (.error .DeadStorage, o)

/-- `const T& Optional<T>::Value() const` (optional.h:192-198). -/
def Value_const (o : Optional T) : Except Error T :=
  if !o.is_initialized_ then
    .error .BadOptionalAccess
  else
    match o.data_.obj with
    | some v => .ok v
    | none => .error .DeadStorage

/-- `T& Optional<T>::operator*()` (optional.h:164-167): `return Value();`. -/
def deref (o : Optional T) : Except Error T × Optional T :=
  Value o

/-- `const T& Optional<T>::operator*() const` (optional.h:169-172). -/
def deref_const (o : Optional T) : Except Error T :=
  Value_const o

/-- `T* Optional<T>::operator->()` (optional.h:174-177): `return &Value();`.
The pointer is modelled by the object it points to. -/
def arrow (o : Optional T) : Except Error T × Optional T :=
  Value o

/-- `const T* Optional<T>::operator->() const` (optional.h:179-182). -/
def arrow_const (o : Optional T) : Except Error T :=
  Value_const o

/-- `bool Optional<T>::HasValue() const` (optional.h:149-152). -/
def HasValue (o : Optional T) : Bool :=
  o.is_initialized_

/-- `void Optional<T>::Reset()` (optional.h:200-206). -/
def Reset (o : Optional T) : Except Error Unit × Optional T :=
  if o.is_initialized_ then
    match Value o with
    | (.ok v, o1) => (.ok (), { data_ := o1.data_.destroy v, is_initialized_ := false })
    | (.error e, o1) => (.error e, o1)
  else
    (.ok (), o)

/-- `Optional<T>::~Optional()` (optional.h:82-85): `Reset();`. -/
def destructor (o : Optional T) : Except Error Unit × Optional T :=
  Reset o

/-- `Optional<T>::Optional(const T& value)` (optional.h:54-58).  When the
constructor of `T` throws, no `Optional` comes into existence. -/
def fromValue (ops : TOps T Args) (value : T) : Except Error (Optional T) :=
  match ops.copyCtor value with
  | some v => .ok { data_ := Storage.fresh.construct v, is_initialized_ := true }
  | none => .error .TException

/-- `Optional<T>::Optional(T&& value)` (optional.h:60-64); the second component
is the caller's `value` afterwards. -/
def fromRvalue (ops : TOps T Args) (value : T) : Except Error (Optional T) × T :=
  match ops.moveCtor value with
  | .ok (v, value1) =>
      (.ok { data_ := Storage.fresh.construct v, is_initialized_ := true }, value1)
  | .error value1 => (.error .TException, value1)

/-- `Optional<T>::Optional(const Optional& other)` (optional.h:66-72). -/
def copy (ops : TOps T Args) (other : Optional T) : Except Error (Optional T) :=
  let this : Optional T := { data_ := Storage.fresh, is_initialized_ := other.is_initialized_ }
  if this.is_initialized_ then
    match deref_const other with
    | .ok v =>
        match ops.copyCtor v with
        | some w => .ok { this with data_ := this.data_.construct w }
        | none => .error .TException
    | .error e => .error e
  else
    .ok this

/-- `Optional<T>::Optional(Optional&& other)` (optional.h:74-80); the second
component is `other` afterwards. -/
def move (ops : TOps T Args) (other : Optional T) :
    Except Error (Optional T) × Optional T :=
  let this : Optional T := { data_ := Storage.fresh, is_initialized_ := other.is_initialized_ }
  if this.is_initialized_ then
    match deref other with
    | (.ok v, other1) =>
        match ops.moveCtor v with
        | .ok (w, v1) =>
            (.ok { this with data_ := this.data_.construct w },
              { other1 with data_ := other1.data_.mutate v1 })
        | .error v1 => (.error .TException, { other1 with data_ := other1.data_.mutate v1 })
    | (.error e, other1) => (.error e, other1)
  else
    (.ok this, other)

/-- `Optional& Optional<T>::operator=(const T& value)` (optional.h:87-97). -/
def assignValue (ops : TOps T Args) (o : Optional T) (value : T) :
    Except Error Unit × Optional T :=
  if !o.is_initialized_ then
    match ops.copyCtor value with
    | some v => (.ok (), { data_ := o.data_.construct v, is_initialized_ := true })
    | none => (.error .TException, o)
  else
    match Value o with
    | (.ok cur, o1) =>
        match ops.copyAssign cur value with
        | .ok new => (.ok (), { o1 with data_ := o1.data_.assign cur new })
        | .error left => (.error .TException, { o1 with data_ := o1.data_.mutate left })
    | (.error e, o1) => (.error e, o1)

/-- `Optional& Optional<T>::operator=(T&& value)` (optional.h:99-109); the last
component is the caller's `value` afterwards. -/
def assignRvalue (ops : TOps T Args) (o : Optional T) (value : T) :
    Except Error Unit × Optional T × T :=
  if o.is_initialized_ then
    match Value o with
    | (.ok cur, o1) =>
        match ops.moveAssign cur value with
        | .ok (new, value1) => (.ok (), { o1 with data_ := o1.data_.assign cur new }, value1)
        | .error (left, value1) =>
            (.error .TException, { o1 with data_ := o1.data_.mutate left }, value1)
    | (.error e, o1) => (.error e, o1, value)
  else
    match ops.moveCtor value with
    | .ok (v, value1) =>
        (.ok (), { data_ := o.data_.construct v, is_initialized_ := true }, value1)
    | .error value1 => (.error .TException, o, value1)

/-- `Optional& Optional<T>::operator=(const Optional& rhs)` (optional.h:111-128),
for `rhs` an object other than `*this`. -/
def assignCopy (ops : TOps T Args) (o rhs : Optional T) :
    Except Error Unit × Optional T :=
  if !o.is_initialized_ then
    if rhs.is_initialized_ then
      match deref_const rhs with
      | .ok v =>
          match ops.copyCtor v with
          | some w =>
              (.ok (), { data_ := o.data_.construct w, is_initialized_ := rhs.is_initialized_ })
          | none => (.error .TException, o)
      | .error e => (.error e, o)
    else
      (.ok (), o)
  else
    if rhs.is_initialized_ then
      match Value o with
      | (.ok cur, o1) =>
          match deref_const rhs with
          | .ok v =>
              match ops.copyAssign cur v with
              | .ok new => (.ok (), { o1 with data_ := o1.data_.assign cur new })
              | .error left => (.error .TException, { o1 with data_ := o1.data_.mutate left })
          | .error e => (.error e, o1)
      | (.error e, o1) => (.error e, o1)
    else
      Reset o

/-- `a = a`: `operator=(const Optional& rhs)` (optional.h:111-128) called with
`rhs` bound to `*this`.  Every read of `rhs` (its flag, `*rhs`) yields what the
instance itself holds at that point, and the function writes to the flag only
after its last read of `rhs`, so the reads are those of the state on entry;
`T::operator=` receives the contained object as both target and source. -/
def assignCopySelf (ops : TOps T Args) (o : Optional T) :
    Except Error Unit × Optional T :=
  assignCopy ops o o

/-- `Optional& Optional<T>::operator=(Optional&& rhs)` (optional.h:130-147), for
`rhs` an object other than `*this`; the last component is `rhs` afterwards. -/
def assignMove (ops : TOps T Args) (o rhs : Optional T) :
    Except Error Unit × Optional T × Optional T :=
  if !o.is_initialized_ then
    if rhs.is_initialized_ then
      match deref rhs with
      | (.ok v, rhs1) =>
          match ops.moveCtor v with
          | .ok (w, v1) =>
              let rhs2 : Optional T := { rhs1 with data_ := rhs1.data_.mutate v1 }
              (.ok (), { data_ := o.data_.construct w, is_initialized_ := rhs2.is_initialized_ },
                rhs2)
          | .error v1 => (.error .TException, o, { rhs1 with data_ := rhs1.data_.mutate v1 })
      | (.error e, rhs1) => (.error e, o, rhs1)
    else
      (.ok (), o, rhs)
  else
    if rhs.is_initialized_ then
      match Value o with
      | (.ok cur, o1) =>
          match deref rhs with
          | (.ok v, rhs1) =>
              match ops.moveAssign cur v with
              | .ok (new, v1) =>
                  (.ok (), { o1 with data_ := o1.data_.assign cur new },
                    { rhs1 with data_ := rhs1.data_.mutate v1 })
              | .error (left, v1) =>
                  (.error .TException, { o1 with data_ := o1.data_.mutate left },
                    { rhs1 with data_ := rhs1.data_.mutate v1 })
          | (.error e, rhs1) => (.error e, o1, rhs1)
      | (.error e, o1) => (.error e, o1, rhs)
    else
      let r := Reset o
      (r.1, r.2, rhs)

/-- `void Optional<T>::Emplace(Args&&... args)` (optional.h:154-162). -/
def Emplace (ops : TOps T Args) (o : Optional T) (args : Args) :
    Except Error Unit × Optional T :=
  let destroyed : Except Error Unit × Optional T :=
    if o.is_initialized_ then
      match Value o with
      | (.ok v, o1) => (.ok (), { o1 with data_ := o1.data_.destroy v })
      | (.error e, o1) => (.error e, o1)
    else
      (.ok (), o)
  match destroyed with
  | (.ok _, o1) =>
      match ops.argsCtor args with
      | some v => (.ok (), { data_ := o1.data_.construct v, is_initialized_ := true })
      | none => (.error .TException, o1)
  | (.error e, o1) => (.error e, o1)

/-- Client code `o.Value() = x;`: copy assignment of `x` through the reference
returned by the checked accessor. -/
def writeValue (ops : TOps T Args) (o : Optional T) (x : T) :
    Except Error Unit × Optional T :=
  match Value o with
  | (.ok cur, o1) =>
      match ops.copyAssign cur x with
      | .ok new => (.ok (), { o1 with data_ := o1.data_.assign cur new })
      | .error left => (.error .TException, { o1 with data_ := o1.data_.mutate left })
  | (.error e, o1) => (.error e, o1)

/-- Client code `*o = x;`: copy assignment of `x` through `operator*`. -/
def writeDeref (ops : TOps T Args) (o : Optional T) (x : T) :
    Except Error Unit × Optional T :=
  match deref o with
  | (.ok cur, o1) =>
      match ops.copyAssign cur x with
      | .ok new => (.ok (), { o1 with data_ := o1.data_.assign cur new })
      | .error left => (.error .TException, { o1 with data_ := o1.data_.mutate left })
  | (.error e, o1) => (.error e, o1)

/-- Client code `*(o.operator->()) = x;`: copy assignment of `x` through the
pointer returned by `operator->`. -/
def writeArrow (ops : TOps T Args) (o : Optional T) (x : T) :
    Except Error Unit × Optional T :=
  match arrow o with
  | (.ok cur, o1) =>
      match ops.copyAssign cur x with
      | .ok new => (.ok (), { o1 with data_ := o1.data_.assign cur new })
      | .error left => (.error .TException, { o1 with data_ := o1.data_.mutate left })
  | (.error e, o1) => (.error e, o1)

/-! ## Properties of `T` and of instances used in the statements -/

/-- No constructor and no assignment operator of `T` throws. -/
structure TOps.NoThrow (ops : TOps T Args) : Prop where
  copyCtor_ok : ∀ v, ∃ w, ops.copyCtor v = some w
  moveCtor_ok : ∀ v, ∃ w r, ops.moveCtor v = .ok (w, r)
  argsCtor_ok : ∀ a, ∃ w, ops.argsCtor a = some w
  copyAssign_ok : ∀ d s, ∃ w, ops.copyAssign d s = .ok w
  moveAssign_ok : ∀ d s, ∃ w r, ops.moveAssign d s = .ok (w, r)

/-- Value semantics of `T`: a copy or move constructed object equals its source
(as it was before the operation), and after an assignment the target equals
the source (as it was before the operation).  Nothing is assumed about the
state a moved-from source is left in. -/
structure TOps.Regular (ops : TOps T Args) : Prop where
  copyCtor_eq : ∀ v, ops.copyCtor v = some v
  moveCtor_eq : ∀ v, ∃ r, ops.moveCtor v = .ok (v, r)
  copyAssign_eq : ∀ d s, ops.copyAssign d s = .ok s
  moveAssign_eq : ∀ d s, ∃ r, ops.moveAssign d s = .ok (s, r)

/-- The instance is engaged and the live object in its storage has value `v`. -/
def Engaged (o : Optional T) (v : T) : Prop :=
  o.is_initialized_ = true ∧ o.data_.obj = some v

/-- The instance is disengaged and its storage holds no live object. -/
def Disengaged (o : Optional T) : Prop :=
  o.is_initialized_ = false ∧ o.data_.obj = none

/-- Invariants I1 and I2 of the data model: the flag is set exactly when the
storage holds a live object. -/
def WF (o : Optional T) : Prop :=
  o.is_initialized_ = o.data_.obj.isSome

/-- Constructions minus destructions is 1 for an engaged instance, 0 for a
disengaged one. -/
def Balanced (o : Optional T) : Prop :=
  o.data_.constructions = o.data_.destructions + (if o.is_initialized_ then 1 else 0)

/-- The lifetime invariant: flag and live object agree, the history of the
storage never constructs over a live object nor destroys or assigns to a dead
one and ends live exactly when the flag is set, and the counts balance. -/
def Inv (o : Optional T) : Prop :=
  WF o ∧ lifecycle false o.data_.log = some o.is_initialized_ ∧ Balanced o

/-! ## Sequences of public operations on one instance -/

/-- The ways to create an instance. -/
inductive Ctor (T : Type) where
  | default
  | fromValue (value : T)
  | fromRvalue (value : T)
  | copy (other : Optional T)
  | move (other : Optional T)

/-- Runs a constructor. -/
def Ctor.run (ops : TOps T Args) : Ctor T → Except Error (Optional T)
  | .default => .ok Optional.default
  | .fromValue value => Opt.fromValue ops value
  | .fromRvalue value => (Opt.fromRvalue ops value).1
  | .copy other => Opt.copy ops other
  | .move other => (Opt.move ops other).1

/-- The `Optional` operands of a constructor call satisfy I1 and I2. -/
def Ctor.operandsWF : Ctor T → Prop
  | .copy other => WF other
  | .move other => WF other
  | _ => True

/-- The public operations on an existing instance, with their arguments. -/
inductive Op (T Args : Type) where
  | assignValue (value : T)
  | assignRvalue (value : T)
  | assignCopy (rhs : Optional T)
  | assignCopySelf
  | assignMove (rhs : Optional T)
  | Emplace (args : Args)
  | Reset
  | HasValue
  | Value
  | Value_const
  | deref
  | deref_const
  | arrow
  | arrow_const
  | writeValue (x : T)
  | writeDeref (x : T)
  | destructor

/-- Forgets the value a call returns, keeping whether and how it failed. -/
def discard {α : Type} : Except Error α → Except Error Unit
  | .ok _ => .ok ()
  | .error e => .error e

/-- Runs one operation on the instance `o`: how the call ended, and `o`
afterwards. -/
def Op.run (ops : TOps T Args) (o : Optional T) : Op T Args → Except Error Unit × Optional T
  | .assignValue value => Opt.assignValue ops o value
  | .assignRvalue value => ((Opt.assignRvalue ops o value).1, (Opt.assignRvalue ops o value).2.1)
  | .assignCopy rhs => Opt.assignCopy ops o rhs
  | .assignCopySelf => Opt.assignCopySelf ops o
  | .assignMove rhs => ((Opt.assignMove ops o rhs).1, (Opt.assignMove ops o rhs).2.1)
  | .Emplace args => Opt.Emplace ops o args
  | .Reset => Opt.Reset o
  | .HasValue => (.ok (), o)
  | .Value => (discard (Opt.Value o).1, (Opt.Value o).2)
  | .Value_const => (discard (Opt.Value_const o), o)
  | .deref => (discard (Opt.deref o).1, (Opt.deref o).2)
  | .deref_const => (discard (Opt.deref_const o), o)
  | .arrow => (discard (Opt.arrow o).1, (Opt.arrow o).2)
  | .arrow_const => (discard (Opt.arrow_const o), o)
  | .writeValue x => Opt.writeValue ops o x
  | .writeDeref x => Opt.writeDeref ops o x
  | .destructor => Opt.destructor o

/-- The `Optional` operands of an operation satisfy I1 and I2. -/
def Op.operandsWF : Op T Args → Prop
  | .assignCopy rhs => WF rhs
  | .assignMove rhs => WF rhs
  | _ => True

/-- Runs a sequence of operations from `o`; lists, for each operation in turn,
how the call ended and the state of the instance after it. -/
def outcomes (ops : TOps T Args) : Optional T → List (Op T Args) →
    List (Except Error Unit × Optional T)
  | _, [] => []
  | o, op :: rest => op.run ops o :: outcomes ops (op.run ops o).2 rest

/-- The state of the instance after a sequence of operations. -/
def runOps (ops : TOps T Args) (o : Optional T) (l : List (Op T Args)) : Optional T :=
  l.foldl (fun s op => (op.run ops s).2) o

/-- An outcome of an operation that respects lifetimes: the instance satisfies
`Inv`, the call did not touch dead storage and did not see `T` throw. -/
def Sound (r : Except Error Unit × Optional T) : Prop :=
  Inv r.2 ∧ r.1 ≠ .error .DeadStorage ∧ r.1 ≠ .error .TException

/-- The operations that hand out access to the contained object: checked
access, `operator*`, `operator->`, and client writes through them.  All other
operations are the constructors, the four assignment operators, `a = a`,
`Emplace`, `Reset`, `HasValue` and destruction. -/
def Op.isAccess : Op T Args → Bool
  | .Value => true
  | .Value_const => true
  | .deref => true
  | .deref_const => true
  | .arrow => true
  | .arrow_const => true
  | .writeValue _ => true
  | .writeDeref _ => true
  | _ => false

/-! ## Two instances -/

/-- Two distinct `Optional` objects `a` and `b`. -/
structure Two (T : Type) where
  a : Optional T
  b : Optional T

/-- An operation performed on `b` in the presence of `a`: an operation whose
operands are outside the pair, or `b = a`. -/
inductive OpB (T Args : Type) where
  | ext (op : Op T Args)
  | assignFromA

/-- Runs an operation on `b`. -/
def OpB.run (ops : TOps T Args) (s : Two T) : OpB T Args → Two T
  | .ext op => { s with b := (op.run ops s.b).2 }
  | .assignFromA => { s with b := (Opt.assignCopy ops s.b s.a).2 }

/-- Runs a sequence of operations on `b`. -/
def Two.runOnB (ops : TOps T Args) (s : Two T) (l : List (OpB T Args)) : Two T :=
  l.foldl (OpB.run ops) s

/-! ## A concrete contained type -/

/-- The operations of `std::string`, none of which is taken to throw; a
moved-from string is left empty, and `Emplace(n, c)` builds `n` copies of `c`. -/
def stringOps : TOps String (Nat × Char) where
  copyCtor v := some v
  moveCtor v := .ok (v, "")
  argsCtor a := some (String.mk (List.replicate a.1 a.2))
  copyAssign _ s := .ok s
  moveAssign _ s := .ok (s, "")

/-- An engaged `Optional<std::string>` holding `v`, with the history of one
construction. -/
def engagedString (v : String) : Optional String :=
  { data_ := Storage.fresh.construct v, is_initialized_ := true }

/-- An engaged instance holding `v`, with the history of one construction. -/
def engagedWith (v : T) : Optional T :=
  { data_ := Storage.fresh.construct v, is_initialized_ := true }

/-- A contained type whose constructors can throw: an object holds a natural
number and cannot be constructed with a value above 9 (the constructor from a
number, the copy constructor and the move constructor then throw).  Its
assignment operators do not throw, and a moved-from object holds 0. -/
def fragileOps : TOps Nat Nat where
  copyCtor v := if v ≤ 9 then some v else none
  moveCtor v := if v ≤ 9 then .ok (v, 0) else .error v
  argsCtor n := if n ≤ 9 then some n else none
  copyAssign _ s := .ok s
  moveAssign _ s := .ok (s, 0)

/-! ## Theorems -/

/-! ### Helper lemmas -/

theorem stringOps_regular : stringOps.Regular :=
  ⟨fun _ => rfl, fun _ => ⟨_, rfl⟩, fun _ _ => rfl, fun _ _ => ⟨_, rfl⟩⟩

theorem stringOps_noThrow : stringOps.NoThrow :=
  ⟨fun _ => ⟨_, rfl⟩, fun _ => ⟨_, _, rfl⟩, fun _ => ⟨_, rfl⟩, fun _ _ => ⟨_, rfl⟩,
    fun _ _ => ⟨_, _, rfl⟩⟩

theorem Value_of_engaged {o : Optional T} {v : T} (h : Engaged o v) :
    Value o = (.ok v, o) := by
  obtain ⟨h1, h2⟩ := h
  simp [Value, h1, h2]

theorem Value_const_of_engaged {o : Optional T} {v : T} (h : Engaged o v) :
    Value_const o = .ok v := by
  obtain ⟨h1, h2⟩ := h
  simp [Value_const, h1, h2]

theorem Value_fst_eq_Value_const (o : Optional T) : (Value o).1 = Value_const o := by
  unfold Value Value_const
  cases o.is_initialized_ <;> cases o.data_.obj <;> rfl

theorem Value_snd (o : Optional T) : (Value o).2 = o := by
  unfold Value
  cases o.is_initialized_ <;> cases o.data_.obj <;> rfl

/-! ### C1: checked access -/

/-- C1: `Value()` (mutable and const) fails with `BadOptionalAccess` exactly when
the instance is disengaged; the call never changes the instance (so a
disengaged one stays disengaged); on an engaged instance holding `v` it
returns `v` without error. -/
theorem Value_raises_iff_disengaged (o : Optional T) :
    ((Value o).1 = .error .BadOptionalAccess ↔ o.is_initialized_ = false) ∧
    (Value_const o = .error .BadOptionalAccess ↔ o.is_initialized_ = false) ∧
    (Value o).2 = o ∧
    (∀ v, Engaged o v → Value o = (.ok v, o) ∧ Value_const o = .ok v) := by
  refine ⟨?_, ?_, Value_snd o, fun v h => ⟨Value_of_engaged h, Value_const_of_engaged h⟩⟩
  · unfold Value
    cases o.is_initialized_ <;> cases o.data_.obj <;> simp
  · unfold Value_const
    cases o.is_initialized_ <;> cases o.data_.obj <;> simp

/-- C1 at concrete inputs: a default-constructed `Optional<std::string>` raises
and is left as it was; one holding "hi" returns "hi". -/
theorem Value_raises_iff_disengaged_witness :
    (Value (Optional.default : Optional String)).1 = .error .BadOptionalAccess ∧
    (Value (Optional.default : Optional String)).2 = Optional.default ∧
    Engaged (engagedString "hi") "hi" ∧
    Value (engagedString "hi") = (.ok "hi", engagedString "hi") ∧
    Value_const (engagedString "hi") = .ok "hi" :=
  ⟨(Value_raises_iff_disengaged Optional.default).1.2 rfl,
    (Value_raises_iff_disengaged Optional.default).2.2.1,
    ⟨rfl, rfl⟩,
    (Value_raises_iff_disengaged (engagedString "hi")).2.2.2 "hi" ⟨rfl, rfl⟩⟩

/-! ### C2: the unchecked accessors -/

/-- C2 at a failing input: on a default-constructed (disengaged)
`Optional<std::string>`, `operator*` and `operator->`, mutable and const, run
the engaged check of `Value()` and raise `BadOptionalAccess`. -/
theorem deref_arrow_raise_on_disengaged :
    deref (Optional.default : Optional String) = (.error .BadOptionalAccess, Optional.default) ∧
    deref_const (Optional.default : Optional String) = .error .BadOptionalAccess ∧
    arrow (Optional.default : Optional String) = (.error .BadOptionalAccess, Optional.default) ∧
    arrow_const (Optional.default : Optional String) = .error .BadOptionalAccess :=
  ⟨rfl, rfl, rfl, rfl⟩

/-! ### C3: copy assignment -/

/-- C3: the four cases of `lhs = rhs` (copy), for a `T` with value semantics.
(1) both disengaged: `lhs` is unchanged; (2) `lhs` disengaged, `rhs` engaged
with `v`: `lhs` becomes engaged with `v` and its history grows by exactly one
construction; (3) `lhs` engaged with `u`, `rhs` disengaged: `lhs` becomes
disengaged and its history grows by exactly one destruction, of `u`; (4) both
engaged: `lhs` stays engaged, now with `v`, and its history grows by exactly
one assignment.  `rhs` is a `const Optional&` and `assignCopy` returns no new
state for it: in the system of the two objects, `lhs = rhs` leaves `rhs` as it
was, in all cases. -/
theorem assignCopy_four_cases (ops : TOps T Args) (hops : ops.Regular) (o rhs : Optional T) :
    OpB.run ops (⟨rhs, o⟩ : Two T) (OpB.assignFromA : OpB T Args)
      = ⟨rhs, (assignCopy ops o rhs).2⟩ ∧
    (Disengaged o → Disengaged rhs → assignCopy ops o rhs = (.ok (), o)) ∧
    (∀ v, Disengaged o → Engaged rhs v →
      ∃ o1, assignCopy ops o rhs = (.ok (), o1) ∧ Engaged o1 v ∧
        o1.data_.log = o.data_.log ++ [Event.construct v]) ∧
    (∀ u, Engaged o u → Disengaged rhs →
      ∃ o1, assignCopy ops o rhs = (.ok (), o1) ∧ Disengaged o1 ∧
        o1.data_.log = o.data_.log ++ [Event.destroy u]) ∧
    (∀ u v, Engaged o u → Engaged rhs v →
      ∃ o1, assignCopy ops o rhs = (.ok (), o1) ∧ Engaged o1 v ∧
        o1.data_.log = o.data_.log ++ [Event.assign u v]) := by
  refine ⟨rfl, ?_, ?_, ?_, ?_⟩
  · rintro ⟨h1, -⟩ ⟨h2, -⟩
    simp [assignCopy, h1, h2]
  · rintro v ⟨h1, -⟩ hr
    refine ⟨⟨o.data_.construct v, true⟩, ?_, ⟨rfl, rfl⟩, rfl⟩
    simp [assignCopy, h1, hr.1, deref_const, Value_const_of_engaged hr, hops.copyCtor_eq,
      Storage.construct]
  · rintro u ho ⟨h2, -⟩
    refine ⟨⟨o.data_.destroy u, false⟩, ?_, ⟨rfl, rfl⟩, rfl⟩
    simp [assignCopy, ho.1, h2, Reset, Value_of_engaged ho, Storage.destroy]
  · rintro u v ho hr
    refine ⟨⟨o.data_.assign u v, true⟩, ?_, ⟨rfl, rfl⟩, rfl⟩
    simp [assignCopy, ho.1, hr.1, Value_of_engaged ho, deref_const, Value_const_of_engaged hr,
      hops.copyAssign_eq, Storage.assign]

/-- C3 at concrete inputs: assigning an `Optional<std::string>` holding "hi" to
a default-constructed one, and to one holding "yo". -/
theorem assignCopy_four_cases_witness :
    (∃ o1, assignCopy stringOps Optional.default (engagedString "hi") = (.ok (), o1) ∧
        Engaged o1 "hi" ∧
        o1.data_.log = (Optional.default : Optional String).data_.log ++ [Event.construct "hi"]) ∧
    (∃ o1, assignCopy stringOps (engagedString "yo") (engagedString "hi") = (.ok (), o1) ∧
        Engaged o1 "hi" ∧
        o1.data_.log = (engagedString "yo").data_.log ++ [Event.assign "yo" "hi"]) :=
  ⟨(assignCopy_four_cases stringOps stringOps_regular Optional.default
      (engagedString "hi")).2.2.1 "hi" ⟨rfl, rfl⟩ ⟨rfl, rfl⟩,
    (assignCopy_four_cases stringOps stringOps_regular (engagedString "yo")
      (engagedString "hi")).2.2.2.2 "yo" "hi" ⟨rfl, rfl⟩ ⟨rfl, rfl⟩⟩

/-! ### C4: move assignment -/

theorem deref_eq_Value (o : Optional T) : deref o = (Value_const o, o) := by
  unfold deref Value Value_const
  cases o.is_initialized_ <;> cases o.data_.obj <;> rfl

/-- C4: for a `T` with value semantics, `lhs = std::move(rhs)` ends as
`lhs = rhs` (copy) does and leaves `lhs` in the same state: same engaged flag,
same contained value, same history of constructions, destructions and
assignments on its storage (hence the same counts).  When `rhs` held `v`
before the move, `lhs` holds `v` after it. -/
theorem assignMove_same_as_assignCopy (ops : TOps T Args) (hops : ops.Regular)
    (o rhs : Optional T) :
    (assignMove ops o rhs).1 = (assignCopy ops o rhs).1 ∧
    (assignMove ops o rhs).2.1 = (assignCopy ops o rhs).2 ∧
    (assignMove ops o rhs).2.1.data_.constructions
      = (assignCopy ops o rhs).2.data_.constructions ∧
    (assignMove ops o rhs).2.1.data_.destructions
      = (assignCopy ops o rhs).2.data_.destructions ∧
    (∀ v, WF o → Engaged rhs v → Engaged (assignMove ops o rhs).2.1 v) := by
  have key : (assignMove ops o rhs).1 = (assignCopy ops o rhs).1 ∧
      (assignMove ops o rhs).2.1 = (assignCopy ops o rhs).2 := by
    unfold assignMove assignCopy
    rcases o with ⟨⟨oobj, olog⟩, _ | _⟩ <;> rcases rhs with ⟨⟨robj, rlog⟩, _ | _⟩ <;>
      simp [Reset, deref_eq_Value, deref_const]
    · cases hv : Value_const (T := T) ⟨⟨robj, rlog⟩, true⟩ with
      | error e => simp
      | ok v =>
        obtain ⟨r, hr⟩ := hops.moveCtor_eq v
        simp [hr, hops.copyCtor_eq]
    · cases hu : Value (T := T) ⟨⟨oobj, olog⟩, true⟩ with
      | mk res o1 =>
        cases res with
        | error e => simp
        | ok u =>
          cases hv : Value_const (T := T) ⟨⟨robj, rlog⟩, true⟩ with
          | error e => simp
          | ok v =>
            obtain ⟨r, hr⟩ := hops.moveAssign_eq u v
            simp [hr, hops.copyAssign_eq]
  refine ⟨key.1, key.2, by rw [key.2], by rw [key.2], ?_⟩
  intro v hwf hr
  rw [key.2]
  rcases o with ⟨⟨oobj, olog⟩, _ | _⟩
  · refine ⟨?_, ?_⟩ <;>
      simp [assignCopy, hr.1, deref_const, Value_const_of_engaged hr, hops.copyCtor_eq,
        Storage.construct]
  · cases oobj with
    | none => simp [WF] at hwf
    | some u =>
      have ho : Engaged (T := T) ⟨⟨some u, olog⟩, true⟩ u := ⟨rfl, rfl⟩
      refine ⟨?_, ?_⟩ <;>
        simp [assignCopy, hr.1, Value_of_engaged ho, deref_const, Value_const_of_engaged hr,
          hops.copyAssign_eq, Storage.assign]

/-- C4 at concrete inputs: move-assigning an `Optional<std::string>` holding
"hi" to a default-constructed one gives the state copy assignment gives. -/
theorem assignMove_same_as_assignCopy_witness :
    (assignMove stringOps Optional.default (engagedString "hi")).2.1
      = (assignCopy stringOps Optional.default (engagedString "hi")).2 ∧
    Engaged (assignMove stringOps Optional.default (engagedString "hi")).2.1 "hi" :=
  ⟨(assignMove_same_as_assignCopy stringOps stringOps_regular Optional.default
      (engagedString "hi")).2.1,
    (assignMove_same_as_assignCopy stringOps stringOps_regular Optional.default
      (engagedString "hi")).2.2.2.2 "hi" rfl ⟨rfl, rfl⟩⟩

/-! ### C5: no leak and no double destruction -/

theorem lifecycle_append (b : Bool) (l l1 : List (Event T)) :
    lifecycle b (l ++ l1) = (lifecycle b l).bind fun b1 => lifecycle b1 l1 := by
  induction l generalizing b with
  | nil => simp [lifecycle]
  | cons e es ih => cases e <;> cases b <;> simp [lifecycle, ih]

theorem Inv_default : Inv (Optional.default : Optional T) := by
  refine ⟨rfl, rfl, rfl⟩

theorem Inv_construct {log : List (Event T)} {obj : Option T}
    (h : Inv (T := T) ⟨⟨obj, log⟩, false⟩) (w : T) :
    Inv (T := T) ⟨⟨some w, log ++ [Event.construct w]⟩, true⟩ := by
  obtain ⟨-, h2, h3⟩ := h
  refine ⟨rfl, ?_, ?_⟩
  · simp only at h2 ⊢
    rw [lifecycle_append, h2]
    rfl
  · simp [Balanced, Storage.constructions, Storage.destructions, List.filter_append] at h3 ⊢
    omega

theorem Inv_destroy {log : List (Event T)} {obj : Option T}
    (h : Inv (T := T) ⟨⟨obj, log⟩, true⟩) (u : T) :
    Inv (T := T) ⟨⟨none, log ++ [Event.destroy u]⟩, false⟩ := by
  obtain ⟨-, h2, h3⟩ := h
  refine ⟨rfl, ?_, ?_⟩
  · simp only at h2 ⊢
    rw [lifecycle_append, h2]
    rfl
  · simp [Balanced, Storage.constructions, Storage.destructions, List.filter_append] at h3 ⊢
    omega

theorem Inv_assign {log : List (Event T)} {obj : Option T}
    (h : Inv (T := T) ⟨⟨obj, log⟩, true⟩) (u v : T) :
    Inv (T := T) ⟨⟨some v, log ++ [Event.assign u v]⟩, true⟩ := by
  obtain ⟨-, h2, h3⟩ := h
  refine ⟨rfl, ?_, ?_⟩
  · simp only at h2 ⊢
    rw [lifecycle_append, h2]
    rfl
  · simp [Balanced, Storage.constructions, Storage.destructions, List.filter_append] at h3 ⊢
    omega

theorem WF_cases {o : Optional T} (h : WF o) :
    (∃ log, o = ⟨⟨none, log⟩, false⟩) ∨ (∃ u log, o = ⟨⟨some u, log⟩, true⟩) := by
  rcases o with ⟨⟨_ | u, log⟩, _ | _⟩
  · exact Or.inl ⟨log, rfl⟩
  · simp [WF] at h
  · simp [WF] at h
  · exact Or.inr ⟨u, log, rfl⟩


theorem run_sound (ops : TOps T Args) (hops : ops.NoThrow) (o : Optional T) (ho : Inv o)
    (op : Op T Args) (hop : op.operandsWF) : Sound (op.run ops o) := by
  rcases WF_cases ho.1 with ⟨log, rfl⟩ | ⟨u, log, rfl⟩
  · -- the instance is disengaged
    cases op with
    | assignValue value =>
      obtain ⟨w, hw⟩ := hops.copyCtor_ok value
      simpa [Sound, Op.run, assignValue, hw, Storage.construct] using Inv_construct ho w
    | assignRvalue value =>
      obtain ⟨w, r, hw⟩ := hops.moveCtor_ok value
      simpa [Sound, Op.run, assignRvalue, hw, Storage.construct] using Inv_construct ho w
    | assignCopy rhs =>
      rcases WF_cases hop with ⟨rlog, rfl⟩ | ⟨v, rlog, rfl⟩
      · simpa [Sound, Op.run, assignCopy] using ho
      · obtain ⟨w, hw⟩ := hops.copyCtor_ok v
        simpa [Sound, Op.run, assignCopy, deref_const, Value_const, hw, Storage.construct]
          using Inv_construct ho w
    | assignCopySelf => simpa [Sound, Op.run, assignCopySelf, assignCopy] using ho
    | assignMove rhs =>
      rcases WF_cases hop with ⟨rlog, rfl⟩ | ⟨v, rlog, rfl⟩
      · simpa [Sound, Op.run, assignMove] using ho
      · obtain ⟨w, r, hw⟩ := hops.moveCtor_ok v
        simpa [Sound, Op.run, assignMove, deref, Value, hw, Storage.construct, Storage.mutate]
          using Inv_construct ho w
    | Emplace args =>
      obtain ⟨w, hw⟩ := hops.argsCtor_ok args
      simpa [Sound, Op.run, Emplace, hw, Storage.construct] using Inv_construct ho w
    | Reset => simpa [Sound, Op.run, Reset] using ho
    | HasValue => simpa [Sound, Op.run] using ho
    | Value => simpa [Sound, Op.run, Value, discard] using ho
    | Value_const => simpa [Sound, Op.run, Value_const, discard] using ho
    | deref => simpa [Sound, Op.run, deref, Value, discard] using ho
    | deref_const => simpa [Sound, Op.run, deref_const, Value_const, discard] using ho
    | arrow => simpa [Sound, Op.run, arrow, Value, discard] using ho
    | arrow_const => simpa [Sound, Op.run, arrow_const, Value_const, discard] using ho
    | writeValue x => simpa [Sound, Op.run, writeValue, Value] using ho
    | writeDeref x => simpa [Sound, Op.run, writeDeref, deref, Value] using ho
    | destructor => simpa [Sound, Op.run, destructor, Reset] using ho
  · -- the instance is engaged and holds `u`
    cases op with
    | assignValue value =>
      obtain ⟨w, hw⟩ := hops.copyAssign_ok u value
      simpa [Sound, Op.run, assignValue, Value, hw, Storage.assign] using Inv_assign ho u w
    | assignRvalue value =>
      obtain ⟨w, r, hw⟩ := hops.moveAssign_ok u value
      simpa [Sound, Op.run, assignRvalue, Value, hw, Storage.assign] using Inv_assign ho u w
    | assignCopy rhs =>
      rcases WF_cases hop with ⟨rlog, rfl⟩ | ⟨v, rlog, rfl⟩
      · simpa [Sound, Op.run, assignCopy, Reset, Value, Storage.destroy] using Inv_destroy ho u
      · obtain ⟨w, hw⟩ := hops.copyAssign_ok u v
        simpa [Sound, Op.run, assignCopy, deref_const, Value_const, Value, hw, Storage.assign]
          using Inv_assign ho u w
    | assignCopySelf =>
      obtain ⟨w, hw⟩ := hops.copyAssign_ok u u
      simpa [Sound, Op.run, assignCopySelf, assignCopy, deref_const, Value_const, Value, hw,
        Storage.assign] using Inv_assign ho u w
    | assignMove rhs =>
      rcases WF_cases hop with ⟨rlog, rfl⟩ | ⟨v, rlog, rfl⟩
      · simpa [Sound, Op.run, assignMove, Reset, Value, Storage.destroy] using Inv_destroy ho u
      · obtain ⟨w, r, hw⟩ := hops.moveAssign_ok u v
        simpa [Sound, Op.run, assignMove, deref, Value, hw, Storage.assign, Storage.mutate]
          using Inv_assign ho u w
    | Emplace args =>
      obtain ⟨w, hw⟩ := hops.argsCtor_ok args
      have h1 := Inv_construct (Inv_destroy ho u) w
      simpa [Sound, Op.run, Emplace, Value, hw, Storage.construct, Storage.destroy] using h1
    | Reset => simpa [Sound, Op.run, Reset, Value, Storage.destroy] using Inv_destroy ho u
    | HasValue => simpa [Sound, Op.run] using ho
    | Value => simpa [Sound, Op.run, Value, discard] using ho
    | Value_const => simpa [Sound, Op.run, Value_const, discard] using ho
    | deref => simpa [Sound, Op.run, deref, Value, discard] using ho
    | deref_const => simpa [Sound, Op.run, deref_const, Value_const, discard] using ho
    | arrow => simpa [Sound, Op.run, arrow, Value, discard] using ho
    | arrow_const => simpa [Sound, Op.run, arrow_const, Value_const, discard] using ho
    | writeValue x =>
      obtain ⟨w, hw⟩ := hops.copyAssign_ok u x
      simpa [Sound, Op.run, writeValue, Value, hw, Storage.assign] using Inv_assign ho u w
    | writeDeref x =>
      obtain ⟨w, hw⟩ := hops.copyAssign_ok u x
      simpa [Sound, Op.run, writeDeref, deref, Value, hw, Storage.assign] using Inv_assign ho u w
    | destructor =>
      simpa [Sound, Op.run, destructor, Reset, Value, Storage.destroy] using Inv_destroy ho u

theorem ctor_run_inv (ops : TOps T Args) (hops : ops.NoThrow) (c : Ctor T)
    (hc : c.operandsWF) : ∃ o0, c.run ops = .ok o0 ∧ Inv o0 := by
  cases c with
  | default => exact ⟨_, rfl, Inv_default⟩
  | fromValue value =>
    obtain ⟨w, hw⟩ := hops.copyCtor_ok value
    exact ⟨_, by simp [Ctor.run, fromValue, hw, Storage.construct, Storage.fresh],
      Inv_construct Inv_default w⟩
  | fromRvalue value =>
    obtain ⟨w, r, hw⟩ := hops.moveCtor_ok value
    exact ⟨_, by simp [Ctor.run, fromRvalue, hw, Storage.construct, Storage.fresh],
      Inv_construct Inv_default w⟩
  | copy other =>
    rcases WF_cases hc with ⟨rlog, rfl⟩ | ⟨v, rlog, rfl⟩
    · exact ⟨_, by simp [Ctor.run, copy, Optional.default], Inv_default⟩
    · obtain ⟨w, hw⟩ := hops.copyCtor_ok v
      exact ⟨_,
        by simp [Ctor.run, copy, deref_const, Value_const, hw, Storage.construct, Storage.fresh],
        Inv_construct Inv_default w⟩
  | move other =>
    rcases WF_cases hc with ⟨rlog, rfl⟩ | ⟨v, rlog, rfl⟩
    · exact ⟨_, by simp [Ctor.run, move, Optional.default], Inv_default⟩
    · obtain ⟨w, r, hw⟩ := hops.moveCtor_ok v
      exact ⟨_, by simp [Ctor.run, move, deref, Value, hw, Storage.construct, Storage.fresh],
        Inv_construct Inv_default w⟩

theorem outcomes_sound (ops : TOps T Args) (hops : ops.NoThrow) (l : List (Op T Args))
    (o : Optional T) (ho : Inv o) (hl : ∀ op ∈ l, op.operandsWF) :
    ∀ r ∈ outcomes ops o l, Sound r := by
  induction l generalizing o with
  | nil => simp [outcomes]
  | cons op rest ih =>
    have h1 := run_sound ops hops o ho op (hl op (List.mem_cons_self _ _))
    intro r hr
    simp only [outcomes, List.mem_cons] at hr
    rcases hr with rfl | hr
    · exact h1
    · exact ih _ h1.1 (fun op1 h => hl op1 (List.mem_cons_of_mem _ h)) r hr

/-- C5: when no constructor and no assignment of `T` throws, every constructor
call yields an instance, and after every operation of every finite sequence
of public operations on it (value and `Optional` assignment, `a = a`, `Emplace`,
`Reset`, `HasValue`, `Value`, the accessors, writes through them, destruction;
`Optional` operands satisfying I1 and I2) the instance satisfies `Inv`: the
number of constructions in its storage minus the number of destructions is 1
if it is engaged and 0 if not, the flag is set exactly when the storage holds
a live object, and the history of the storage never constructs a `T` over a
live one nor runs a destructor on storage without one.  No call touches dead
storage. -/
theorem no_leak_no_double_destruction (ops : TOps T Args) (hops : ops.NoThrow)
    (c : Ctor T) (hc : c.operandsWF) (l : List (Op T Args))
    (hl : ∀ op ∈ l, op.operandsWF) :
    ∃ o0, c.run ops = .ok o0 ∧ Inv o0 ∧
      ∀ r ∈ outcomes ops o0 l,
        r.2.data_.constructions
            = r.2.data_.destructions + (if r.2.is_initialized_ then 1 else 0) ∧
          lifecycle false r.2.data_.log = some r.2.is_initialized_ ∧
          r.2.is_initialized_ = r.2.data_.obj.isSome ∧
          r.1 ≠ .error .DeadStorage := by
  obtain ⟨o0, h0, hinv⟩ := ctor_run_inv ops hops c hc
  refine ⟨o0, h0, hinv, fun r hr => ?_⟩
  obtain ⟨⟨h1, h2, h3⟩, h4, -⟩ := outcomes_sound ops hops l o0 hinv hl r hr
  exact ⟨h3, h2, h1, h4⟩

/-- C5 at a concrete input: an `Optional<std::string>` constructed from "hi",
then `Emplace(2, 'a')`, assignment from a disengaged `Optional`, `Reset()`,
assignment of "yo", destruction. -/
theorem no_leak_no_double_destruction_witness :
    ∃ o0, (Ctor.fromValue "hi").run stringOps = .ok o0 ∧ Inv o0 ∧
      ∀ r ∈ outcomes stringOps o0
          [Op.Emplace (2, 'a'), Op.assignCopy Optional.default, Op.Reset,
            Op.assignValue "yo", Op.destructor],
        r.2.data_.constructions
            = r.2.data_.destructions + (if r.2.is_initialized_ then 1 else 0) ∧
          lifecycle false r.2.data_.log = some r.2.is_initialized_ ∧
          r.2.is_initialized_ = r.2.data_.obj.isSome ∧
          r.1 ≠ .error .DeadStorage :=
  no_leak_no_double_destruction stringOps stringOps_noThrow (Ctor.fromValue "hi") trivial _
    (by
      intro op hop
      simp only [List.mem_cons, List.mem_singleton, List.not_mem_nil, or_false] at hop
      rcases hop with rfl | rfl | rfl | rfl | rfl <;> trivial)

/-! ### C6: assignment from a value of `T` -/

/-- C6: `o = v` for an external value `v` of a `T` with value semantics, copy
and move overloads.  On a disengaged instance one `T` is constructed from `v`
(the history grows by exactly that construction) and the instance becomes
engaged with `v`; on an instance engaged with `u` the value is assigned into
the existing object (the history grows by exactly that assignment: nothing is
destroyed or constructed) and the instance stays engaged, now with `v`. -/
theorem assign_from_value (ops : TOps T Args) (hops : ops.Regular) (o : Optional T) (v : T) :
    (Disengaged o →
      (∃ o1, assignValue ops o v = (.ok (), o1) ∧ Engaged o1 v ∧
        o1.data_.log = o.data_.log ++ [Event.construct v]) ∧
      (∃ o1 v1, assignRvalue ops o v = (.ok (), o1, v1) ∧ Engaged o1 v ∧
        o1.data_.log = o.data_.log ++ [Event.construct v])) ∧
    (∀ u, Engaged o u →
      (∃ o1, assignValue ops o v = (.ok (), o1) ∧ Engaged o1 v ∧
        o1.data_.log = o.data_.log ++ [Event.assign u v]) ∧
      (∃ o1 v1, assignRvalue ops o v = (.ok (), o1, v1) ∧ Engaged o1 v ∧
        o1.data_.log = o.data_.log ++ [Event.assign u v])) := by
  obtain ⟨r, hr⟩ := hops.moveCtor_eq v
  refine ⟨?_, ?_⟩
  · rintro ⟨h1, -⟩
    refine ⟨⟨⟨o.data_.construct v, true⟩, ?_, ⟨rfl, rfl⟩, rfl⟩,
      ⟨⟨o.data_.construct v, true⟩, r, ?_, ⟨rfl, rfl⟩, rfl⟩⟩
    · simp [assignValue, h1, hops.copyCtor_eq]
    · simp [assignRvalue, h1, hr]
  · intro u ho
    obtain ⟨r1, hr1⟩ := hops.moveAssign_eq u v
    refine ⟨⟨⟨o.data_.assign u v, true⟩, ?_, ⟨rfl, rfl⟩, rfl⟩,
      ⟨⟨o.data_.assign u v, true⟩, r1, ?_, ⟨rfl, rfl⟩, rfl⟩⟩
    · simp [assignValue, ho.1, Value_of_engaged ho, hops.copyAssign_eq]
    · simp [assignRvalue, ho.1, Value_of_engaged ho, hr1]

/-- C6 at concrete inputs: assigning "hi" to a default-constructed
`Optional<std::string>` (copy overload) and to one holding "yo" (move
overload). -/
theorem assign_from_value_witness :
    (∃ o1, assignValue stringOps Optional.default "hi" = (.ok (), o1) ∧ Engaged o1 "hi" ∧
        o1.data_.log = (Optional.default : Optional String).data_.log ++ [Event.construct "hi"]) ∧
    (∃ o1 v1, assignRvalue stringOps (engagedString "yo") "hi" = (.ok (), o1, v1) ∧
        Engaged o1 "hi" ∧
        o1.data_.log = (engagedString "yo").data_.log ++ [Event.assign "yo" "hi"]) :=
  ⟨((assign_from_value stringOps stringOps_regular Optional.default "hi").1 ⟨rfl, rfl⟩).1,
    ((assign_from_value stringOps stringOps_regular (engagedString "yo") "hi").2 "yo"
      ⟨rfl, rfl⟩).2⟩

/-! ### C7: Emplace -/

/-- C7: `Emplace(args)` when `T(args...)` produces `w`.  On an instance engaged
with `u` the history of the storage grows by the destruction of `u` followed
by the construction of `w`, and by nothing else; on a disengaged instance it
grows by the construction of `w` alone.  In both cases the call returns
normally and the instance is engaged with `w`. -/
theorem Emplace_replaces (ops : TOps T Args) (o : Optional T) (args : Args) (w : T)
    (hw : ops.argsCtor args = some w) :
    (∀ u, Engaged o u →
      ∃ o1, Emplace ops o args = (.ok (), o1) ∧ Engaged o1 w ∧
        o1.data_.log = o.data_.log ++ [Event.destroy u, Event.construct w]) ∧
    (Disengaged o →
      ∃ o1, Emplace ops o args = (.ok (), o1) ∧ Engaged o1 w ∧
        o1.data_.log = o.data_.log ++ [Event.construct w]) := by
  refine ⟨?_, ?_⟩
  · intro u ho
    refine ⟨⟨(o.data_.destroy u).construct w, true⟩, ?_, ⟨rfl, rfl⟩, ?_⟩
    · simp [Emplace, ho.1, Value_of_engaged ho, hw]
    · simp [Storage.construct, Storage.destroy]
  · rintro ⟨h1, -⟩
    refine ⟨⟨o.data_.construct w, true⟩, ?_, ⟨rfl, rfl⟩, rfl⟩
    simp [Emplace, h1, hw]

/-- C7 at a concrete input: `Emplace(2, 'a')` on an `Optional<std::string>`
holding "hi" destroys "hi", then constructs "aa". -/
theorem Emplace_replaces_witness :
    ∃ o1, Emplace stringOps (engagedString "hi") (2, 'a') = (.ok (), o1) ∧ Engaged o1 "aa" ∧
      o1.data_.log = (engagedString "hi").data_.log ++ [Event.destroy "hi", Event.construct "aa"] :=
  (Emplace_replaces stringOps (engagedString "hi") (2, 'a') "aa" rfl).1 "hi" ⟨rfl, rfl⟩

/-! ### C8: a moved-from source keeps its flag -/

/-- C8: whatever `T` does, after move construction from `s` and after move
assignment of `s` into any `o`, `s.HasValue()` is what it was before; the
history of the storage of `s` is untouched and its storage holds a live
object exactly when it did before: only the value of that object may differ. -/
theorem moved_from_keeps_engaged (ops : TOps T Args) (o s : Optional T) :
    HasValue (move ops s).2 = HasValue s ∧
    (move ops s).2.data_.log = s.data_.log ∧
    (move ops s).2.data_.obj.isSome = s.data_.obj.isSome ∧
    HasValue (assignMove ops o s).2.2 = HasValue s ∧
    (assignMove ops o s).2.2.data_.log = s.data_.log ∧
    (assignMove ops o s).2.2.data_.obj.isSome = s.data_.obj.isSome := by
  have hmove : ∀ p : Except Error (Optional T) × Optional T, p = move ops s →
      HasValue p.2 = HasValue s ∧ p.2.data_.log = s.data_.log ∧
        p.2.data_.obj.isSome = s.data_.obj.isSome := by
    intro p hp
    subst hp
    rcases s with ⟨⟨_ | v, slog⟩, _ | _⟩ <;> simp [move, HasValue, deref, Value]
    cases ops.moveCtor v with
    | error v1 => simp [Storage.mutate]
    | ok p => simp [Storage.mutate]
  have hassign : ∀ p : Except Error Unit × Optional T × Optional T, p = assignMove ops o s →
      HasValue p.2.2 = HasValue s ∧ p.2.2.data_.log = s.data_.log ∧
        p.2.2.data_.obj.isSome = s.data_.obj.isSome := by
    intro p hp
    subst hp
    rcases s with ⟨⟨_ | v, slog⟩, _ | _⟩ <;> rcases o with ⟨⟨_ | u, olog⟩, _ | _⟩ <;>
      simp [assignMove, HasValue, deref, Value, Reset]
    all_goals first
      | (cases ops.moveCtor v with
          | error v1 => simp [Storage.mutate]
          | ok p => simp [Storage.mutate])
      | (cases ops.moveAssign u v with
          | error v1 => simp [Storage.mutate]
          | ok p => simp [Storage.mutate])
  exact ⟨(hmove _ rfl).1, (hmove _ rfl).2.1, (hmove _ rfl).2.2, (hassign _ rfl).1,
    (hassign _ rfl).2.1, (hassign _ rfl).2.2⟩

/-! ### C9: copy construction -/

theorem runOnB_a (ops : TOps T Args) (l : List (OpB T Args)) (s : Two T) :
    (Two.runOnB ops s l).a = s.a := by
  induction l generalizing s with
  | nil => rfl
  | cons op rest ih =>
    have h : (OpB.run ops s op).a = s.a := by cases op <;> rfl
    simp only [Two.runOnB, List.foldl_cons] at ih ⊢
    rw [ih, h]

/-- C9: for a `T` with value semantics and a source `A` satisfying I1 and I2,
the copy constructor produces an instance `B` that is engaged iff `A` is; when
`A` holds `v`, `B` holds `v` in storage of its own, whose history is the one
construction of `v`; when `A` is disengaged `B` is as default-constructed.
`A` is a `const Optional&` and `copy` returns no new state for it.  Whatever
sequence of operations is then performed on `B` (assignments, also from `A`,
`Emplace`, `Reset`, writes through `Value()` and `operator*`, ...), `A` as a
whole, hence its engaged flag and what `Value()` returns on it, is unchanged. -/
theorem copy_mirrors_source (ops : TOps T Args) (hops : ops.Regular) (A : Optional T)
    (hA : WF A) :
    ∃ B, copy ops A = .ok B ∧
      HasValue B = HasValue A ∧
      (∀ v, Engaged A v → Engaged B v ∧ B.data_.log = [Event.construct v]) ∧
      (Disengaged A → B = Optional.default) ∧
      ∀ l : List (OpB T Args),
        (Two.runOnB ops ⟨A, B⟩ l).a = A ∧
        Value_const (Two.runOnB ops ⟨A, B⟩ l).a = Value_const A := by
  rcases WF_cases hA with ⟨log, rfl⟩ | ⟨u, log, rfl⟩
  · refine ⟨Optional.default, by simp [copy, Optional.default], rfl, ?_, fun _ => rfl, ?_⟩
    · rintro v ⟨h, -⟩
      simp at h
    · intro l
      rw [runOnB_a]
      exact ⟨rfl, rfl⟩
  · refine ⟨⟨Storage.fresh.construct u, true⟩, ?_, rfl, ?_, ?_, ?_⟩
    · simp [copy, deref_const, Value_const, hops.copyCtor_eq]
    · rintro v ⟨-, h⟩
      simp only [Option.some.injEq] at h
      subst h
      exact ⟨⟨rfl, rfl⟩, rfl⟩
    · rintro ⟨h, -⟩
      simp at h
    · intro l
      rw [runOnB_a]
      exact ⟨rfl, rfl⟩

/-- C9 at a concrete input: the copy of an `Optional<std::string>` holding
"hi" holds "hi"; after `*b = "yo"`, `b.Emplace(2, 'a')`, `b = a` and
`b.Reset()` the source still holds "hi". -/
theorem copy_mirrors_source_witness :
    ∃ B, copy stringOps (engagedString "hi") = .ok B ∧
      HasValue B = HasValue (engagedString "hi") ∧
      (∀ v, Engaged (engagedString "hi") v → Engaged B v ∧ B.data_.log = [Event.construct v]) ∧
      (Disengaged (engagedString "hi") → B = Optional.default) ∧
      ∀ l : List (OpB String (Nat × Char)),
        (Two.runOnB stringOps ⟨engagedString "hi", B⟩ l).a = engagedString "hi" ∧
        Value_const (Two.runOnB stringOps ⟨engagedString "hi", B⟩ l).a
          = Value_const (engagedString "hi") :=
  copy_mirrors_source stringOps stringOps_regular (engagedString "hi") rfl

/-! ### C10: Reset -/

/-- C10: on an instance satisfying I1 and I2, `Reset()` returns normally and
leaves `HasValue()` false; on an instance engaged with `u` the history of the
storage grows by exactly the destruction of `u` (one more destruction); on a
disengaged instance the call changes nothing; a second `Reset()` right after
the first changes nothing, so the state and the number of destructions after
two calls are those after one. -/
theorem Reset_idempotent (o : Optional T) (hwf : WF o) :
    (Reset o).1 = .ok () ∧
    HasValue (Reset o).2 = false ∧
    (∀ u, Engaged o u →
      Disengaged (Reset o).2 ∧
      (Reset o).2.data_.log = o.data_.log ++ [Event.destroy u] ∧
      (Reset o).2.data_.destructions = o.data_.destructions + 1) ∧
    (Disengaged o → Reset o = (.ok (), o)) ∧
    Reset (Reset o).2 = (.ok (), (Reset o).2) ∧
    (Reset (Reset o).2).2.data_.destructions = (Reset o).2.data_.destructions := by
  rcases WF_cases hwf with ⟨log, rfl⟩ | ⟨u, log, rfl⟩
  · refine ⟨rfl, rfl, ?_, fun _ => rfl, rfl, rfl⟩
    rintro u ⟨h, -⟩
    simp at h
  · refine ⟨rfl, rfl, ?_, ?_, rfl, rfl⟩
    · rintro v ⟨-, h⟩
      simp only [Option.some.injEq] at h
      subst h
      refine ⟨⟨rfl, rfl⟩, rfl, ?_⟩
      simp [Reset, Value, Storage.destroy, Storage.destructions, List.filter_append]
    · rintro ⟨h, -⟩
      simp at h

/-- C10 at a concrete input: `Reset()` on an `Optional<std::string>` holding
"hi" destroys "hi" once, and a second `Reset()` changes nothing. -/
theorem Reset_idempotent_witness :
    (Reset (engagedString "hi")).2.data_.log
        = (engagedString "hi").data_.log ++ [Event.destroy "hi"] ∧
    HasValue (Reset (engagedString "hi")).2 = false ∧
    Reset (Reset (engagedString "hi")).2 = (.ok (), (Reset (engagedString "hi")).2) :=
  ⟨((Reset_idempotent (engagedString "hi") rfl).2.2.1 "hi" ⟨rfl, rfl⟩).2.1,
    (Reset_idempotent (engagedString "hi") rfl).2.1,
    (Reset_idempotent (engagedString "hi") rfl).2.2.2.2.1⟩

/-! ### C11: construction from a value -/

/-- C11: for a `T` with value semantics and every value `v`, both
`Optional(const T&)` and `Optional(T&&)` yield an instance for which
`HasValue()` is true and `Value()` (mutable and const) returns `v` without
error. -/
theorem value_construction_engages (ops : TOps T Args) (hops : ops.Regular) (v : T) :
    (∃ o, fromValue ops v = .ok o ∧ HasValue o = true ∧ Value o = (.ok v, o) ∧
      Value_const o = .ok v) ∧
    (∃ o v1, fromRvalue ops v = (.ok o, v1) ∧ HasValue o = true ∧ Value o = (.ok v, o) ∧
      Value_const o = .ok v) := by
  obtain ⟨r, hr⟩ := hops.moveCtor_eq v
  have he : Engaged (T := T) ⟨Storage.fresh.construct v, true⟩ v := ⟨rfl, rfl⟩
  refine ⟨⟨⟨Storage.fresh.construct v, true⟩, ?_, rfl, Value_of_engaged he,
    Value_const_of_engaged he⟩,
    ⟨⟨Storage.fresh.construct v, true⟩, r, ?_, rfl, Value_of_engaged he,
      Value_const_of_engaged he⟩⟩
  · simp [fromValue, hops.copyCtor_eq]
  · simp [fromRvalue, hr]

/-- C11 at a concrete input: `Optional<std::string>` constructed from "hi". -/
theorem value_construction_engages_witness :
    (∃ o, fromValue stringOps "hi" = .ok o ∧ HasValue o = true ∧ Value o = (.ok "hi", o) ∧
      Value_const o = .ok "hi") ∧
    (∃ o v1, fromRvalue stringOps "hi" = (.ok o, v1) ∧ HasValue o = true ∧
      Value o = (.ok "hi", o) ∧ Value_const o = .ok "hi") :=
  value_construction_engages stringOps stringOps_regular "hi"

/-! ### C12: the destructor -/

/-- C12: destroying an instance engaged with `u` returns normally, runs the
destructor of `u` and nothing else on the storage (one more destruction) and
leaves no live object; destroying a disengaged instance changes nothing, so
destroys nothing.  An `Optional` constructed from a value (by copy or by
move; `w` is the object the constructor of `T` produced) and then destroyed
has the history: construction of `w`, destruction of `w` — exactly one
destruction. -/
theorem destructor_destroys_live (ops : TOps T Args) (o : Optional T) :
    (∀ u, Engaged o u →
      ∃ o1, destructor o = (.ok (), o1) ∧ Disengaged o1 ∧
        o1.data_.log = o.data_.log ++ [Event.destroy u] ∧
        o1.data_.destructions = o.data_.destructions + 1) ∧
    (Disengaged o → destructor o = (.ok (), o)) ∧
    (∀ v w, ops.copyCtor v = some w →
      ∃ o0 o1, fromValue ops v = .ok o0 ∧ destructor o0 = (.ok (), o1) ∧
        o1.data_.log = [Event.construct w, Event.destroy w] ∧ o1.data_.destructions = 1) ∧
    (∀ v w v1, ops.moveCtor v = .ok (w, v1) →
      ∃ o0 o1, fromRvalue ops v = (.ok o0, v1) ∧ destructor o0 = (.ok (), o1) ∧
        o1.data_.log = [Event.construct w, Event.destroy w] ∧ o1.data_.destructions = 1) := by
  refine ⟨?_, ?_, ?_, ?_⟩
  · intro u ho
    refine ⟨⟨o.data_.destroy u, false⟩, ?_, ⟨rfl, rfl⟩, rfl, ?_⟩
    · simp [destructor, Reset, ho.1, Value_of_engaged ho]
    · simp [Storage.destroy, Storage.destructions, List.filter_append]
  · rintro ⟨h, -⟩
    simp [destructor, Reset, h]
  · intro v w hw
    refine ⟨⟨Storage.fresh.construct w, true⟩, ⟨(Storage.fresh.construct w).destroy w, false⟩,
      ?_, ?_, rfl, rfl⟩
    · simp [fromValue, hw]
    · simp [destructor, Reset, Value, Storage.construct]
  · intro v w v1 hw
    refine ⟨⟨Storage.fresh.construct w, true⟩, ⟨(Storage.fresh.construct w).destroy w, false⟩,
      ?_, ?_, rfl, rfl⟩
    · simp [fromRvalue, hw]
    · simp [destructor, Reset, Value, Storage.construct]

/-- C12 at concrete inputs: destroying an `Optional<std::string>` that holds
"hi", and one constructed from "hi". -/
theorem destructor_destroys_live_witness :
    (∃ o1, destructor (engagedString "hi") = (.ok (), o1) ∧ Disengaged o1 ∧
        o1.data_.log = (engagedString "hi").data_.log ++ [Event.destroy "hi"] ∧
        o1.data_.destructions = (engagedString "hi").data_.destructions + 1) ∧
    (∃ o0 o1, fromValue stringOps "hi" = .ok o0 ∧ destructor o0 = (.ok (), o1) ∧
        o1.data_.log = [Event.construct "hi", Event.destroy "hi"] ∧
        o1.data_.destructions = 1) :=
  ⟨(destructor_destroys_live stringOps (engagedString "hi")).1 "hi" ⟨rfl, rfl⟩,
    (destructor_destroys_live stringOps (engagedString "hi")).2.2.1 "hi" "hi" rfl⟩

/-! ### C15: default construction and HasValue -/

/-- C15: a default-constructed `Optional` reports `HasValue() == false`, and
nothing was constructed in its storage (no live object, empty history, zero
constructions).  For every instance `HasValue()` returns the engaged flag and,
as an operation, returns normally and leaves the instance as it was; on an
instance satisfying I1 and I2 it is true exactly when the storage holds a
live `T`. -/
theorem default_is_empty (ops : TOps T Args) (o : Optional T) :
    HasValue (Optional.default : Optional T) = false ∧
    (Optional.default : Optional T).data_.obj = none ∧
    (Optional.default : Optional T).data_.log = [] ∧
    (Optional.default : Optional T).data_.constructions = 0 ∧
    Disengaged (Optional.default : Optional T) ∧
    (HasValue o = true ↔ o.is_initialized_ = true) ∧
    Op.run ops o Op.HasValue = (.ok (), o) ∧
    (WF o → (HasValue o = true ↔ ∃ v, Engaged o v)) := by
  refine ⟨rfl, rfl, rfl, rfl, ⟨rfl, rfl⟩, Iff.rfl, rfl, ?_⟩
  intro hwf
  rcases WF_cases hwf with ⟨log, rfl⟩ | ⟨u, log, rfl⟩
  · simp [HasValue, Engaged]
  · simp [HasValue, Engaged]

/-- C15 at a concrete input: `HasValue()` on an `Optional<std::string>` holding
"hi". -/
theorem default_is_empty_witness :
    HasValue (engagedString "hi") = true ↔ ∃ v, Engaged (engagedString "hi") v :=
  (default_is_empty stringOps (engagedString "hi")).2.2.2.2.2.2.2 rfl

/-! ### C16: the message of BadOptionalAccess -/

/-- C16: `BadOptionalAccess::what()` returns exactly "Bad optional access": the
exception class has no data members, so the message is one constant, the same
whichever instance raised the error and from whichever state. -/
theorem what_is_fixed : BadOptionalAccess.what = "Bad optional access" :=
  rfl

/-! ### C13: only checked access raises BadOptionalAccess -/

theorem Value_ne_bad {o : Optional T} (h : o.is_initialized_ = true) :
    (Value o).1 ≠ .error .BadOptionalAccess := by
  unfold Value
  cases hobj : o.data_.obj <;> simp [h]

theorem Value_const_ne_bad {o : Optional T} (h : o.is_initialized_ = true) :
    Value_const o ≠ .error .BadOptionalAccess := by
  unfold Value_const
  cases hobj : o.data_.obj <;> simp [h]

theorem ctor_ne_bad (ops : TOps T Args) (c : Ctor T) :
    c.run ops ≠ .error .BadOptionalAccess := by
  cases c with
  | default => simp [Ctor.run]
  | fromValue value =>
    simp only [Ctor.run, fromValue]
    cases ops.copyCtor value <;> simp
  | fromRvalue value =>
    simp only [Ctor.run, fromRvalue]
    cases ops.moveCtor value <;> simp
  | copy other =>
    rcases other with ⟨⟨_ | v, rlog⟩, _ | _⟩ <;> simp [Ctor.run, copy, deref_const, Value_const]
    cases ops.copyCtor v <;> simp
  | move other =>
    rcases other with ⟨⟨_ | v, rlog⟩, _ | _⟩ <;> simp [Ctor.run, move, deref, Value]
    cases ops.moveCtor v <;> simp

theorem run_ne_bad (ops : TOps T Args) (o : Optional T) (op : Op T Args)
    (hop : op.isAccess = false) : (op.run ops o).1 ≠ .error .BadOptionalAccess := by
  cases op <;> simp [Op.isAccess] at hop
  case assignCopy rhs =>
    rcases o with ⟨⟨_ | u, log⟩, _ | _⟩ <;> rcases rhs with ⟨⟨_ | v, rlog⟩, _ | _⟩ <;>
      simp [Op.run, assignCopy, Reset, Value, deref_const, Value_const] <;>
      (repeat' split) <;> simp_all
  case assignMove rhs =>
    rcases o with ⟨⟨_ | u, log⟩, _ | _⟩ <;> rcases rhs with ⟨⟨_ | v, rlog⟩, _ | _⟩ <;>
      simp [Op.run, assignMove, Reset, Value, deref] <;>
      (repeat' split) <;> simp_all
  all_goals
    rcases o with ⟨⟨_ | u, log⟩, _ | _⟩ <;>
      simp [Op.run, assignValue, assignRvalue, assignCopySelf, assignCopy, Emplace, Reset,
        destructor, Value, deref_const, Value_const] <;>
      (repeat' split) <;> simp_all

theorem run_ok (ops : TOps T Args) (hops : ops.NoThrow) (o : Optional T) (ho : WF o)
    (op : Op T Args) (hacc : op.isAccess = false) (hop : op.operandsWF) :
    (op.run ops o).1 = .ok () := by
  rcases WF_cases ho with ⟨log, rfl⟩ | ⟨u, log, rfl⟩
  · cases op <;> simp [Op.isAccess] at hacc
    case assignValue value =>
      obtain ⟨w, hw⟩ := hops.copyCtor_ok value
      simp [Op.run, assignValue, hw]
    case assignRvalue value =>
      obtain ⟨w, r, hw⟩ := hops.moveCtor_ok value
      simp [Op.run, assignRvalue, hw]
    case assignCopy rhs =>
      rcases WF_cases hop with ⟨rlog, rfl⟩ | ⟨v, rlog, rfl⟩
      · simp [Op.run, assignCopy]
      · obtain ⟨w, hw⟩ := hops.copyCtor_ok v
        simp [Op.run, assignCopy, deref_const, Value_const, hw]
    case assignCopySelf => simp [Op.run, assignCopySelf, assignCopy]
    case assignMove rhs =>
      rcases WF_cases hop with ⟨rlog, rfl⟩ | ⟨v, rlog, rfl⟩
      · simp [Op.run, assignMove]
      · obtain ⟨w, r, hw⟩ := hops.moveCtor_ok v
        simp [Op.run, assignMove, deref, Value, hw]
    case Emplace args =>
      obtain ⟨w, hw⟩ := hops.argsCtor_ok args
      simp [Op.run, Emplace, hw]
    case Reset => simp [Op.run, Reset]
    case HasValue => simp [Op.run]
    case destructor => simp [Op.run, destructor, Reset]
  · cases op <;> simp [Op.isAccess] at hacc
    case assignValue value =>
      obtain ⟨w, hw⟩ := hops.copyAssign_ok u value
      simp [Op.run, assignValue, Value, hw]
    case assignRvalue value =>
      obtain ⟨w, r, hw⟩ := hops.moveAssign_ok u value
      simp [Op.run, assignRvalue, Value, hw]
    case assignCopy rhs =>
      rcases WF_cases hop with ⟨rlog, rfl⟩ | ⟨v, rlog, rfl⟩
      · simp [Op.run, assignCopy, Reset, Value]
      · obtain ⟨w, hw⟩ := hops.copyAssign_ok u v
        simp [Op.run, assignCopy, deref_const, Value_const, Value, hw]
    case assignCopySelf =>
      obtain ⟨w, hw⟩ := hops.copyAssign_ok u u
      simp [Op.run, assignCopySelf, assignCopy, deref_const, Value_const, Value, hw]
    case assignMove rhs =>
      rcases WF_cases hop with ⟨rlog, rfl⟩ | ⟨v, rlog, rfl⟩
      · simp [Op.run, assignMove, Reset, Value]
      · obtain ⟨w, r, hw⟩ := hops.moveAssign_ok u v
        simp [Op.run, assignMove, deref, Value, hw]
    case Emplace args =>
      obtain ⟨w, hw⟩ := hops.argsCtor_ok args
      simp [Op.run, Emplace, Value, hw]
    case Reset => simp [Op.run, Reset, Value]
    case HasValue => simp [Op.run]
    case destructor => simp [Op.run, destructor, Reset, Value]

/-- C13: whatever `T` does and whatever state the instance and the operands
are in, no constructor and no operation other than the accessors (the four
assignment operators, `a = a`, `Emplace`, `Reset`, `HasValue`, destruction)
ends with `BadOptionalAccess`: each of their internal calls to `Value()` is
made with the engaged flag set.  When moreover no constructor or assignment of
`T` throws and the instance and the `Optional` operands satisfy I1 and I2,
every such operation returns normally and every constructor yields an
instance. -/
theorem only_checked_access_raises (ops : TOps T Args) (o : Optional T) :
    (∀ c : Ctor T, c.run ops ≠ .error .BadOptionalAccess) ∧
    (∀ op : Op T Args, op.isAccess = false →
      (op.run ops o).1 ≠ .error .BadOptionalAccess) ∧
    (ops.NoThrow → WF o → ∀ op : Op T Args, op.isAccess = false → op.operandsWF →
      (op.run ops o).1 = .ok ()) ∧
    (ops.NoThrow → ∀ c : Ctor T, c.operandsWF → ∃ o0, c.run ops = .ok o0) := by
  refine ⟨ctor_ne_bad ops, run_ne_bad ops o, fun hops ho op hacc hop =>
    run_ok ops hops o ho op hacc hop, fun hops c hc => ?_⟩
  obtain ⟨o0, h0, -⟩ := ctor_run_inv ops hops c hc
  exact ⟨o0, h0⟩

/-- C13 at concrete inputs: `Emplace(2, 'a')` on an `Optional<std::string>`
holding "hi" returns normally, and move construction from that instance
yields an instance. -/
theorem only_checked_access_raises_witness :
    (Op.run stringOps (engagedString "hi") (Op.Emplace (2, 'a'))).1 = .ok () ∧
    ∃ o0, (Ctor.move (engagedString "hi")).run stringOps = .ok o0 :=
  ⟨(only_checked_access_raises stringOps (engagedString "hi")).2.2.1 stringOps_noThrow rfl
      (Op.Emplace (2, 'a')) rfl trivial,
    (only_checked_access_raises stringOps (engagedString "hi")).2.2.2 stringOps_noThrow
      (Ctor.move (engagedString "hi")) rfl⟩

/-! ### C14: the scenario of the specification -/

/-- C14: for a `T` with value semantics and every value `v`: a
default-constructed `a` has `HasValue()` false; `a = v` (copy and move
overloads give the same `a`) returns normally, after which `a.HasValue()` is
true and `*a` is `v`; the copy `b(a)` has `HasValue()` true and `*b` is `v`;
`a.Reset()` returns normally, after which `a.Value()` raises
`BadOptionalAccess`, while `b`, untouched by the operations on `a`, is still
engaged with `v`. -/
theorem scenario (ops : TOps T Args) (hops : ops.Regular) (v : T) :
    HasValue (Optional.default : Optional T) = false ∧
    ∃ a1 v1 b a2,
      assignValue ops Optional.default v = (.ok (), a1) ∧
      assignRvalue ops Optional.default v = (.ok (), a1, v1) ∧
      HasValue a1 = true ∧ deref a1 = (.ok v, a1) ∧
      copy ops a1 = .ok b ∧
      HasValue b = true ∧ deref b = (.ok v, b) ∧
      Reset a1 = (.ok (), a2) ∧
      Two.runOnB ops ⟨b, a1⟩ [(OpB.ext Op.Reset : OpB T Args)] = ⟨b, a2⟩ ∧
      (Value a2).1 = .error .BadOptionalAccess ∧
      Value_const a2 = .error .BadOptionalAccess ∧
      Engaged b v ∧ deref_const b = .ok v := by
  obtain ⟨r, hr⟩ := hops.moveCtor_eq v
  refine ⟨rfl, ⟨Storage.fresh.construct v, true⟩, r, ⟨Storage.fresh.construct v, true⟩,
    ⟨(Storage.fresh.construct v).destroy v, false⟩, ?_, ?_, rfl, rfl, ?_, rfl, rfl, rfl, rfl,
    rfl, rfl, ⟨rfl, rfl⟩, rfl⟩
  · simp [assignValue, Optional.default, hops.copyCtor_eq]
  · simp [assignRvalue, Optional.default, hr]
  · simp [copy, deref_const, Value_const, Storage.construct, hops.copyCtor_eq]

/-- C14 at the input of the specification: `T = std::string`, `v = "hi"`. -/
theorem scenario_witness :
    HasValue (Optional.default : Optional String) = false ∧
    ∃ a1 v1 b a2,
      assignValue stringOps Optional.default "hi" = (.ok (), a1) ∧
      assignRvalue stringOps Optional.default "hi" = (.ok (), a1, v1) ∧
      HasValue a1 = true ∧ deref a1 = (.ok "hi", a1) ∧
      copy stringOps a1 = .ok b ∧
      HasValue b = true ∧ deref b = (.ok "hi", b) ∧
      Reset a1 = (.ok (), a2) ∧
      Two.runOnB stringOps ⟨b, a1⟩ [(OpB.ext Op.Reset : OpB String (Nat × Char))] = ⟨b, a2⟩ ∧
      (Value a2).1 = .error .BadOptionalAccess ∧
      Value_const a2 = .error .BadOptionalAccess ∧
      Engaged b "hi" ∧ deref_const b = .ok "hi" :=
  scenario stringOps stringOps_regular "hi"

/-! ### C17: the flag and the live object when a constructor of `T` throws -/

/-- C17 at a failing input: `T` cannot be constructed from 10.  `Emplace(10)`
on an instance holding 1 destroys the 1, the constructor throws, and the
instance is left with the engaged flag set over storage with no live object
(I2 is broken).  The destructor of the `Optional` then passes the engaged
check and runs `~T()` on that dead storage, where the 1 had already been
destroyed.  `Reset()`, which clears the flag after destroying, and the
assignment operators, which set it only after constructing, keep the
pairing. -/
theorem Emplace_throw_leaves_flag_set :
    Emplace fragileOps (engagedWith 1) 10
      = (.error .TException,
          { data_ := { obj := none, log := [Event.construct 1, Event.destroy 1] },
            is_initialized_ := true }) ∧
    HasValue (Emplace fragileOps (engagedWith 1) 10).2 = true ∧
    (Emplace fragileOps (engagedWith 1) 10).2.data_.obj = none ∧
    ¬ WF (Emplace fragileOps (engagedWith 1) 10).2 ∧
    destructor (Emplace fragileOps (engagedWith 1) 10).2
      = (.error .DeadStorage, (Emplace fragileOps (engagedWith 1) 10).2) := by
  refine ⟨rfl, rfl, rfl, ?_, rfl⟩
  simp [WF, Emplace, engagedWith, Value, Storage.construct, Storage.destroy, Storage.fresh,
    fragileOps]

/-! ### C18: a failed assignment to a disengaged instance -/

/-- C18: on a disengaged instance, when the construction of `T` throws during
assignment from a value (copy: `T(const T&)` throws; move: `T(T&&)` throws) or
from an `Optional` engaged with `v` (copy or move), the call ends with the
exception of `T` and the instance is exactly as before: disengaged, no live
object, no event on its storage. -/
theorem failed_assignment_keeps_disengaged (ops : TOps T Args) (o : Optional T)
    (hd : Disengaged o) :
    (∀ v, ops.copyCtor v = none → assignValue ops o v = (.error .TException, o)) ∧
    (∀ v v1, ops.moveCtor v = .error v1 →
      assignRvalue ops o v = (.error .TException, o, v1)) ∧
    (∀ rhs v, Engaged rhs v → ops.copyCtor v = none →
      assignCopy ops o rhs = (.error .TException, o)) ∧
    (∀ rhs v v1, Engaged rhs v → ops.moveCtor v = .error v1 →
      (assignMove ops o rhs).1 = .error .TException ∧ (assignMove ops o rhs).2.1 = o) ∧
    o.is_initialized_ = false ∧ o.data_.obj = none := by
  obtain ⟨h1, h2⟩ := hd
  refine ⟨?_, ?_, ?_, ?_, h1, h2⟩
  · intro v hv
    simp [assignValue, h1, hv]
  · intro v v1 hv
    simp [assignRvalue, h1, hv]
  · intro rhs v hr hv
    simp [assignCopy, h1, hr.1, deref_const, Value_const_of_engaged hr, hv]
  · intro rhs v v1 hr hv
    simp [assignMove, h1, hr.1, deref, Value_of_engaged hr, hv]

/-- C18 at concrete inputs: `T` cannot be constructed from 10; assigning 10,
or an `Optional` holding 10, to a default-constructed instance throws and
leaves it default-constructed. -/
theorem failed_assignment_keeps_disengaged_witness :
    assignValue fragileOps Optional.default 10 = (.error .TException, Optional.default) ∧
    assignRvalue fragileOps Optional.default 10 = (.error .TException, Optional.default, 10) ∧
    assignCopy fragileOps Optional.default (engagedWith 10)
      = (.error .TException, Optional.default) ∧
    (assignMove fragileOps Optional.default (engagedWith 10)).2.1 = Optional.default :=
  ⟨(failed_assignment_keeps_disengaged fragileOps Optional.default ⟨rfl, rfl⟩).1 10 rfl,
    (failed_assignment_keeps_disengaged fragileOps Optional.default ⟨rfl, rfl⟩).2.1 10 10 rfl,
    (failed_assignment_keeps_disengaged fragileOps Optional.default ⟨rfl, rfl⟩).2.2.1
      (engagedWith 10) 10 ⟨rfl, rfl⟩ rfl,
    ((failed_assignment_keeps_disengaged fragileOps Optional.default ⟨rfl, rfl⟩).2.2.2.1
      (engagedWith 10) 10 10 ⟨rfl, rfl⟩ rfl).2⟩

/-! ### C19: the accessors on an engaged instance -/

/-- C19: on an instance engaged with `u`, `Value()`, `operator*` and
`operator->` (mutable and const) all return the contained object `u` and
leave the instance, hence its engaged flag, as it was.  A write of `x`
through any of the three is the same operation; it leaves the instance
engaged, and afterwards each of the three accessors reads the value `w` that
the assignment of `T` gave the object. -/
theorem accessors_agree (ops : TOps T Args) (o : Optional T) (u : T) (h : Engaged o u) :
    Value o = (.ok u, o) ∧ deref o = (.ok u, o) ∧ arrow o = (.ok u, o) ∧
    Value_const o = .ok u ∧ deref_const o = .ok u ∧ arrow_const o = .ok u ∧
    (∀ x w, ops.copyAssign u x = .ok w →
      writeDeref ops o x = writeValue ops o x ∧
      writeArrow ops o x = writeValue ops o x ∧
      ∃ o1, writeValue ops o x = (.ok (), o1) ∧ HasValue o1 = true ∧
        Value o1 = (.ok w, o1) ∧ deref o1 = (.ok w, o1) ∧ arrow o1 = (.ok w, o1) ∧
        Value_const o1 = .ok w ∧ deref_const o1 = .ok w ∧ arrow_const o1 = .ok w) := by
  have hv := Value_of_engaged h
  have hc := Value_const_of_engaged h
  refine ⟨hv, hv, hv, hc, hc, hc, ?_⟩
  intro x w hw
  have h1 : Engaged (T := T) ⟨o.data_.assign u w, true⟩ w := ⟨rfl, rfl⟩
  have hv1 := Value_of_engaged h1
  have hc1 := Value_const_of_engaged h1
  refine ⟨rfl, rfl, ⟨o.data_.assign u w, true⟩, ?_, rfl, hv1, hv1, hv1, hc1, hc1, hc1⟩
  simp [writeValue, hv, hw, h.1]

/-- C19 at a concrete input: on an `Optional<std::string>` holding "hi", a
write of "yo" through `operator*` is read back through `Value()`. -/
theorem accessors_agree_witness :
    deref (engagedString "hi") = Value (engagedString "hi") ∧
    ∃ o1, writeDeref stringOps (engagedString "hi") "yo" = (.ok (), o1) ∧
      Value o1 = (.ok "yo", o1) :=
  ⟨((accessors_agree stringOps (engagedString "hi") "hi" ⟨rfl, rfl⟩).2.1).trans
      (accessors_agree stringOps (engagedString "hi") "hi" ⟨rfl, rfl⟩).1.symm,
    by
      obtain ⟨hd, -, o1, h1, -, h2, -⟩ :=
        (accessors_agree stringOps (engagedString "hi") "hi" ⟨rfl, rfl⟩).2.2.2.2.2.2 "yo" "yo" rfl
      exact ⟨o1, hd.trans h1, h2⟩⟩

/-! ### C20: copy self-assignment -/

/-- C20: `a = a`, whatever `T` does and whatever state `a` is in, performs no
construction and no destruction on the storage and leaves the engaged flag as
it was.  On a disengaged instance it returns normally and changes nothing.
On an instance engaged with `u` it is the assignment of the contained object
to itself: when that assignment returns `w`, the instance holds `w` and its
history has grown by that one assignment; so when the self-assignment of `T`
leaves the object unchanged (`w = u`), the contained value is unchanged. -/
theorem self_assignment_harmless (ops : TOps T Args) (o : Optional T) :
    (assignCopySelf ops o).2.data_.constructions = o.data_.constructions ∧
    (assignCopySelf ops o).2.data_.destructions = o.data_.destructions ∧
    HasValue (assignCopySelf ops o).2 = HasValue o ∧
    (o.is_initialized_ = false → assignCopySelf ops o = (.ok (), o)) ∧
    (∀ u w, Engaged o u → ops.copyAssign u u = .ok w →
      assignCopySelf ops o = (.ok (), ⟨o.data_.assign u w, true⟩)) ∧
    (∀ u, Engaged o u → ops.copyAssign u u = .ok u →
      ∃ o1, assignCopySelf ops o = (.ok (), o1) ∧ Engaged o1 u) := by
  have key : ∀ u w, Engaged o u → ops.copyAssign u u = .ok w →
      assignCopySelf ops o = (.ok (), ⟨o.data_.assign u w, true⟩) := by
    intro u w ho hw
    simp [assignCopySelf, assignCopy, ho.1, Value_of_engaged ho, deref_const,
      Value_const_of_engaged ho, hw]
  refine ⟨?_, ?_, ?_, ?_, key, ?_⟩
  · rcases o with ⟨⟨_ | u, log⟩, _ | _⟩ <;>
      simp [assignCopySelf, assignCopy, Value, deref_const, Value_const]
    cases ops.copyAssign u u <;>
      simp [Storage.constructions, Storage.assign, Storage.mutate, List.filter_append]
  · rcases o with ⟨⟨_ | u, log⟩, _ | _⟩ <;>
      simp [assignCopySelf, assignCopy, Value, deref_const, Value_const]
    cases ops.copyAssign u u <;>
      simp [Storage.destructions, Storage.assign, Storage.mutate, List.filter_append]
  · rcases o with ⟨⟨_ | u, log⟩, _ | _⟩ <;>
      simp [assignCopySelf, assignCopy, Value, deref_const, Value_const, HasValue]
    cases ops.copyAssign u u <;> simp
  · intro h
    simp [assignCopySelf, assignCopy, h]
  · intro u ho hw
    exact ⟨_, key u u ho hw, ⟨rfl, rfl⟩⟩

/-- C20 at a concrete input: `a = a` on an `Optional<std::string>` holding
"hi" leaves it holding "hi". -/
theorem self_assignment_harmless_witness :
    ∃ o1, assignCopySelf stringOps (engagedString "hi") = (.ok (), o1) ∧ Engaged o1 "hi" :=
  (self_assignment_harmless stringOps (engagedString "hi")).2.2.2.2.2 "hi" ⟨rfl, rfl⟩ rfl

end Opt
